import Mathlib

/-!
Shallow embedding of the Ai-Mock mock-interview application logic.

Source files embedded:
- the interview flow controller (`QuestionSection`: `generateCrossQuestion`,
  `handleNextQuestion`),
- the answer recorder (`RecordAnswer`: `recordUserAnswer`, `saveUserAnswer`,
  `generateOverallResult`, the unmount cleanup effect),
- the intake form (`FormMockInterview`: `cleanAiResponse`, `generateQuestions`).

JavaScript strings are modelled as `List Char` (named `Str`), `JSON.parse`
as an executable parser `jsonParse` covering the JSON subset these
components exchange (strings with simple escapes, integers, booleans, null,
arrays, objects); platform calls (Gemini, Firestore, speech) are modelled as
explicit outcome parameters.  React `useState` setters become explicit state
records; within one handler the handler reads the state captured at entry,
as a React closure does.
-/

abbrev Str := List Char

/-- JS `String.prototype.trim`: drop whitespace from both ends. -/
def trimStr (s : Str) : Str :=
  ((s.dropWhile Char.isWhitespace).reverse.dropWhile Char.isWhitespace).reverse

/-- JS `str.split(/\s+/)`: split at maximal whitespace runs.  A leading run
yields an initial empty field and a trailing run a final empty field, as in
JavaScript.  `cur` accumulates the current field reversed; `inWs` records
that we are inside a whitespace run whose field was already emitted. -/
def jsSplitWsGo : List Char → List Char → Bool → List Str
  | [], cur, _ => [cur.reverse]
  | c :: rest, cur, inWs =>
    if c.isWhitespace then
      if inWs then jsSplitWsGo rest cur true
      else cur.reverse :: jsSplitWsGo rest [] true
    else jsSplitWsGo rest (c :: cur) false

def jsSplitWs (s : Str) : List Str :=
  jsSplitWsGo s [] false

/-- The fixed stop-word list of `generateCrossQuestion`. -/
def stopWords : List Str :=
  (["is", "am", "are", "was", "were", "the", "a", "an", "and", "or", "to",
    "of", "in", "on", "for", "with", "this", "that", "it", "as", "by",
    "from"]).map String.toList

def fallbackPrompt : Str :=
  ("Can you explain that in more detail?").toList

/-- JS `keyword.charAt(0).toUpperCase() + keyword.slice(1)`. -/
def capitalizeWord : Str → Str
  | [] => []
  | c :: rest => c.toUpper :: rest

/-- `generateCrossQuestion` from the flow controller: lowercase the answer,
split on whitespace, keep words of length > 2 outside the stop-word list,
take the last one, capitalize it and wrap it; fall back to a generic prompt
when the answer is empty or no keyword qualifies. -/
def generateCrossQuestion (answer : Str) : Str :=
  if answer = [] then fallbackPrompt
  else
    let words := jsSplitWs (answer.map Char.toLower)
    let keywords := words.filter
      (fun w => decide (w.length > 2) && !(stopWords.contains w))
    match keywords.getLast? with
    | none => fallbackPrompt
    | some keyword =>
      ("What is ").toList ++ capitalizeWord keyword ++ ("?").toList

/-- The qualifying-keyword list of `generateCrossQuestion`, exposed for the
statements below. -/
def crossKeywords (answer : Str) : List Str :=
  (jsSplitWs (answer.map Char.toLower)).filter
    (fun w => decide (w.length > 2) && !(stopWords.contains w))

example :
    generateCrossQuestion (("I am building a scalable caching layer").toList)
      = ("What is Layer?").toList := by decide

/-! ## JSON values and `JSON.parse`

The model covers the JSON subset exchanged by these components: strings with
the common escapes, integer numbers, booleans, null, arrays and objects.
Inputs outside the subset (floats, unicode escapes) are rejected, as is any
text `JSON.parse` would reject; `none` models a thrown `SyntaxError`. -/

inductive Json where
  | null
  | bool (b : Bool)
  | num (n : Int)
  | str (s : Str)
  | arr (elems : List Json)
  | obj (members : List (Str × Json))

def skipWs (s : Str) : Str := s.dropWhile Char.isWhitespace

/-- Parse the body of a JSON string literal (after the opening quote),
returning the decoded characters and the input after the closing quote. -/
def parseStringBody : Nat → Str → Option (Str × Str)
  | 0, _ => none
  | _, [] => none
  | fuel + 1, c :: rest =>
    if c = '"' then some ([], rest)
    else if c = '\\' then
      match rest with
      | [] => none
      | e :: rest2 =>
        let dec : Option Char :=
          if e = '"' then some '"'
          else if e = '\\' then some '\\'
          else if e = '/' then some '/'
          else if e = 'n' then some '\n'
          else if e = 't' then some '\t'
          else if e = 'r' then some '\r'
          else none
        match dec with
        | none => none
        | some d => (parseStringBody fuel rest2).map (fun p => (d :: p.1, p.2))
    else (parseStringBody fuel rest).map (fun p => (c :: p.1, p.2))

def parseDigitsAux : Nat → Str → Nat → (Nat × Str)
  | 0, s, acc => (acc, s)
  | fuel + 1, s, acc =>
    match s with
    | c :: rest =>
      if c.isDigit then parseDigitsAux fuel rest (acc * 10 + (c.toNat - 48))
      else (acc, s)
    | [] => (acc, [])

/-- Parse a (non-empty) run of decimal digits. -/
def parseDigits (s : Str) : Option (Nat × Str) :=
  match s with
  | c :: _ =>
    if c.isDigit then some (parseDigitsAux s.length s 0) else none
  | [] => none

/-- Parse an integer JSON number literal. -/
def parseNumLit (s : Str) : Option (Int × Str) :=
  match s with
  | '-' :: rest => (parseDigits rest).map (fun p => (-(p.1 : Int), p.2))
  | _ => (parseDigits s).map (fun p => ((p.1 : Int), p.2))

mutual

def parseVal : Nat → Str → Option (Json × Str)
  | 0, _ => none
  | fuel + 1, s =>
    match skipWs s with
    | [] => none
    | c :: rest =>
      if c = '"' then
        (parseStringBody (rest.length + 1) rest).map
          (fun p => (Json.str p.1, p.2))
      else if c = '\x7b' then
        match skipWs rest with
        | '\x7d' :: r2 => some (Json.obj [], r2)
        | r2 => (parseMembers fuel r2).map (fun p => (Json.obj p.1, p.2))
      else if c = '[' then
        match skipWs rest with
        | ']' :: r2 => some (Json.arr [], r2)
        | r2 => (parseElems fuel r2).map (fun p => (Json.arr p.1, p.2))
      else if List.isPrefixOf (("true").toList) (c :: rest) then
        some (Json.bool true, (c :: rest).drop 4)
      else if List.isPrefixOf (("false").toList) (c :: rest) then
        some (Json.bool false, (c :: rest).drop 5)
      else if List.isPrefixOf (("null").toList) (c :: rest) then
        some (Json.null, (c :: rest).drop 4)
      else
        (parseNumLit (c :: rest)).map (fun p => (Json.num p.1, p.2))
termination_by structural fuel _ => fuel

def parseElems : Nat → Str → Option (List Json × Str)
  | 0, _ => none
  | fuel + 1, s =>
    match parseVal fuel s with
    | none => none
    | some (v, r) =>
      match skipWs r with
      | ',' :: r2 => (parseElems fuel r2).map (fun p => (v :: p.1, p.2))
      | ']' :: r2 => some ([v], r2)
      | _ => none
termination_by structural fuel _ => fuel

def parseMembers : Nat → Str → Option (List (Str × Json) × Str)
  | 0, _ => none
  | fuel + 1, s =>
    match skipWs s with
    | '"' :: rest =>
      match parseStringBody (rest.length + 1) rest with
      | none => none
      | some (key, r) =>
        match skipWs r with
        | ':' :: r2 =>
          match parseVal fuel r2 with
          | none => none
          | some (v, r3) =>
            match skipWs r3 with
            | ',' :: r4 =>
              (parseMembers fuel r4).map (fun p => ((key, v) :: p.1, p.2))
            | '\x7d' :: r4 => some ([(key, v)], r4)
            | _ => none
        | _ => none
    | _ => none
termination_by structural fuel _ => fuel

end

/-- `JSON.parse`: parse one value, requiring only whitespace after it;
`none` models a thrown `SyntaxError`. -/
def jsonParse (s : Str) : Option Json :=
  match parseVal (2 * s.length + 2) s with
  | some (v, r) => if skipWs r = [] then some v else none
  | none => none

example : jsonParse (("[1, 2]").toList)
    = some (Json.arr [Json.num 1, Json.num 2]) := rfl

example : jsonParse (("\x7b\"a\": \"b\"\x7d").toList)
    = some (Json.obj [(("a").toList, Json.str (("b").toList))]) := rfl

example : jsonParse (("garbage").toList) = none := rfl

example : jsonParse [] = none := rfl

/-! ## `cleanAiResponse` (intake form)

`text.indexOf("[")`, `text.lastIndexOf("]")` and `text.slice(start, end+1)`
with ECMAScript index semantics (`-1` for a missing character, negative
slice bounds counted from the end and clamped). -/

def firstIdxAux (c : Char) : Str → Option Nat
  | [] => none
  | x :: xs => if x = c then some 0 else (firstIdxAux c xs).map (· + 1)

def jsIndexOf (s : Str) (c : Char) : Int :=
  match firstIdxAux c s with
  | some i => (i : Int)
  | none => -1

def jsLastIndexOf (s : Str) (c : Char) : Int :=
  match firstIdxAux c s.reverse with
  | some i => ((s.length - 1 - i : Nat) : Int)
  | none => -1

/-- Normalize one `slice` bound: negative indices count from the end, and
the result is clamped into `[0, len]`. -/
def jsNormIdx (len : Nat) (i : Int) : Nat :=
  if i < 0 then ((len : Int) + i).toNat else min i.toNat len

def jsSlice (s : Str) (a b : Int) : Str :=
  let lo := jsNormIdx s.length a
  let hi := jsNormIdx s.length b
  (s.drop lo).take (hi - lo)

/-- `cleanAiResponse` from the intake form: slice from the first `[` to the
last `]` inclusive and `JSON.parse` the result; `none` models the uncaught
parse exception. -/
def cleanAiResponse (text : Str) : Option Json :=
  jsonParse (jsSlice text (jsIndexOf text '[') (jsLastIndexOf text ']' + 1))

example :
    cleanAiResponse
      (("Here you go:\n```json\n[\x7b\"question\":\"Q\",\"answer\":\"A\"\x7d]\n```").toList)
    = some (Json.arr [Json.obj
        [(("question").toList, Json.str (("Q").toList)),
         (("answer").toList, Json.str (("A").toList))]]) := rfl

example : cleanAiResponse [] = none := rfl

example : cleanAiResponse (("hello").toList) = none := rfl

/-! ## `RecordAnswer` component

`generateOverallResult`, `recordUserAnswer`, `saveUserAnswer` and the
unmount cleanup effect.  Firestore's `addDoc` success is modelled by the
returned `persisted` document; the Gemini call outcome is a parameter
(`none` = the request threw).  A handler reads the state captured when it
was entered (React closure semantics) and returns the state left behind by
its `set*` calls. -/

/-- JS `text.replace(/(json|```|`)/g, "")`: scan left to right, at each
position removing the first alternative that matches. -/
def removeMarkupAux : Nat → Str → Str
  | 0, _ => []
  | _, [] => []
  | fuel + 1, c :: rest =>
    if List.isPrefixOf (("json").toList) (c :: rest) then
      removeMarkupAux fuel ((c :: rest).drop 4)
    else if List.isPrefixOf (("\x60\x60\x60").toList) (c :: rest) then
      removeMarkupAux fuel ((c :: rest).drop 3)
    else if c = '\x60' then removeMarkupAux fuel rest
    else c :: removeMarkupAux fuel rest

def removeMarkup (s : Str) : Str := removeMarkupAux s.length s

/-- The response cleanup of `generateOverallResult`:
`.replace(/(json|```|`)/g, "").trim()`. -/
def stripAiText (s : Str) : Str := trimStr (removeMarkup s)

/-- The catch-branch result of `generateOverallResult`. -/
def fallbackFeedback : Json :=
  Json.obj [(("ratings").toList, Json.num 0),
            (("feedback").toList, Json.str (("Unable to generate feedback").toList))]

/-- `generateOverallResult`: strip the response text and `JSON.parse` it;
a failed request (`none` outcome) or a parse exception lands in the catch
branch, which returns the zero-rating fallback. -/
def generateOverallResult (outcome : Option Str) : Json :=
  match outcome with
  | none => fallbackFeedback
  | some text =>
    match jsonParse (stripAiText text) with
    | some j => j
    | none => fallbackFeedback

/-- JS `text.replace(/undefined/g, "")` for a fixed pattern. -/
def removeOccAux (pat : Str) : Nat → Str → Str
  | 0, _ => []
  | _, [] => []
  | fuel + 1, c :: rest =>
    if List.isPrefixOf pat (c :: rest) then
      removeOccAux pat fuel ((c :: rest).drop pat.length)
    else c :: removeOccAux pat fuel rest

def removeOcc (pat s : Str) : Str := removeOccAux pat s.length s

/-- JS truthy field access `j?.feedback || d` for a string field. -/
def jsonStrField (j : Option Json) (key : Str) (d : Str) : Str :=
  match j with
  | some (Json.obj ms) =>
    match (ms.find? (fun m => m.1 == key)).map (fun m => m.2) with
    | some (Json.str s) => if s = [] then d else s
    | _ => d
  | _ => d

/-- JS truthy field access `j?.ratings || d` for a numeric field. -/
def jsonNumField (j : Option Json) (key : Str) (d : Int) : Int :=
  match j with
  | some (Json.obj ms) =>
    match (ms.find? (fun m => m.1 == key)).map (fun m => m.2) with
    | some (Json.num n) => if n = 0 then d else n
    | _ => d
  | _ => d

structure QA where
  question : Str
  answer : Str
deriving DecidableEq

/-- In-memory state of the `RecordAnswer` component: the transcript, the
accumulated per-question answers, the overall AI result, the elapsed-time
counter, whether the interval timer is installed (`timerRef.current`
non-null) and whether speech capture is running. -/
structure RecState where
  userAnswer : Str
  allAnswers : List Str
  aiResult : Option Json
  recordingTime : Nat
  timerActive : Bool
  isRecording : Bool

def MIN_RECORD_TIME : Nat := 30

/-- The `userAnswers` document written by `saveUserAnswer`. -/
structure AnswerDoc where
  mockIdRef : Str
  question : Str
  correct_ans : Str
  user_ans : Str
  overall_feedback : Str
  overall_rating : Int
  userId : Str
deriving DecidableEq

structure SaveOutcome where
  state : RecState
  persisted : Option AnswerDoc
  errorMsg : Option Str

structure RecordOutcome where
  state : RecState
  errorMsg : Option Str
  savedToast : Bool

/-- `recordUserAnswer`: stop branch when capture is running (clear the
timer, strip `undefined`, validate duration then length, accumulate the
answer and on the last question request the overall result), start branch
otherwise (reset transcript and counter, start capture and the interval). -/
def recordUserAnswer (isLast : Bool) (aiOutcome : Option Str)
    (s : RecState) : RecordOutcome :=
  if s.isRecording then
    let cleaned := trimStr (removeOcc (("undefined").toList) s.userAnswer)
    let s1 := { s with isRecording := false, userAnswer := cleaned,
                       timerActive := false }
    if s.recordingTime < MIN_RECORD_TIME then
      ⟨s1, some (("Minimum 30 seconds recording required").toList), false⟩
    else if (trimStr s.userAnswer).length < 30 then
      ⟨s1, some (("Your answer should be more than 30 characters").toList), false⟩
    else
      let updated := s.allAnswers ++ [s.userAnswer]
      if isLast then
        ⟨{ s1 with allAnswers := updated,
                   aiResult := some (generateOverallResult aiOutcome) },
         none, false⟩
      else
        ⟨{ s1 with allAnswers := updated }, none, true⟩
  else
    ⟨{ s with userAnswer := [], recordingTime := 0, isRecording := true,
              timerActive := true }, none, false⟩

/-- `saveUserAnswer`: reject when the elapsed time is below the minimum;
otherwise write the answer document, clear the transcript and counter and
stop capture.  The interval timer is not touched by this handler. -/
def saveUserAnswer (interviewId userId : Str) (question : QA)
    (s : RecState) : SaveOutcome :=
  if s.recordingTime < MIN_RECORD_TIME then
    ⟨s, none, some (("Complete minimum recording first").toList)⟩
  else
    let doc : AnswerDoc :=
      ⟨interviewId, question.question, question.answer, s.userAnswer,
       jsonStrField s.aiResult (("feedback").toList) [],
       jsonNumField s.aiResult (("ratings").toList) 0,
       userId⟩
    ⟨{ s with userAnswer := [], recordingTime := 0, isRecording := false },
     some doc, none⟩

/-- The unmount cleanup effect: `clearInterval(timerRef.current)`. -/
def unmountCleanup (s : RecState) : RecState :=
  { s with timerActive := false }

/-! ## `QuestionSection` flow controller -/

/-- One accumulated answer record `{question, answer, correct}`. -/
structure AnswerRec where
  question : Str
  answer : Str
  correct : Str
deriving DecidableEq

/-- Flow controller state: current index, cross-question sub-state and the
accumulated answer list.  (Pure presentation flags — `isPlaying`,
`showQuestion` — are not part of the transition logic modelled here.) -/
structure FlowState where
  activeIndex : Nat
  isCrossQuestion : Bool
  crossQuestionText : Str
  tempMainAnswer : Str
  allAnswers : List AnswerRec
deriving DecidableEq

/-- The payload handed to `navigate("/generate/feedback/demo", ...)`:
the accumulated answers and the original question list. -/
abbrev NavPayload := List AnswerRec × List QA

/-- `handleNextQuestion`: on a main-answer submission derive the
cross-question and enter the cross sub-state; on a cross-answer submission
append the combined record, clear the cross state and either advance the
index or navigate to the feedback view. -/
def handleNextQuestion (questions : List QA) (s : FlowState)
    (answer : Str) : FlowState × Option NavPayload :=
  if s.isCrossQuestion = false then
    ({ s with tempMainAnswer := answer,
              crossQuestionText := generateCrossQuestion answer,
              isCrossQuestion := true }, none)
  else
    let q := questions.getD s.activeIndex ⟨[], []⟩
    let currentAnswer : AnswerRec :=
      ⟨q.question,
       s.tempMainAnswer ++ (" | Follow-up: ").toList ++ answer,
       q.answer⟩
    let updatedAnswers := s.allAnswers ++ [currentAnswer]
    let s1 := { s with allAnswers := updatedAnswers,
                       isCrossQuestion := false,
                       crossQuestionText := [],
                       tempMainAnswer := [] }
    if s.activeIndex < questions.length - 1 then
      ({ s1 with activeIndex := s.activeIndex + 1 }, none)
    else
      (s1, some (updatedAnswers, questions))

def initFlowState : FlowState := ⟨0, false, [], [], []⟩

/-- Observations from driving one main/cross submission pair through
`handleNextQuestion`. -/
structure PairResult where
  mainNav : Option NavPayload
  enteredCross : Bool
  crossIdx : Nat
  crossNav : Option NavPayload
  answersLen : Nat

/-- Drive the controller with one (main answer, cross answer) pair per
question, recording what each pair did. -/
def runFlow (qs : List QA) (s : FlowState) :
    List (Str × Str) → List PairResult × FlowState
  | [] => ([], s)
  | p :: rest =>
    let m := handleNextQuestion qs s p.1
    let c := handleNextQuestion qs m.1 p.2
    let res := runFlow qs c.1 rest
    (⟨m.2, m.1.isCrossQuestion, m.1.activeIndex, c.2,
      c.1.allAnswers.length⟩ :: res.1, res.2)

/-! ## `generateQuestions` retry loop (intake form)

Each Gemini call is modelled by its outcome: `Except.ok text` (the raw
response text) or `Except.error msg` (the thrown error's message).  The
result triple is (returned value or propagated error, number of calls
made, list of backoff delays in milliseconds). -/

def maxAttempts : Nat := 3

/-- Message of the `SyntaxError` thrown by `JSON.parse` inside the `try`
block; it is caught by the same `catch` and, containing no `"503"`, is
rethrown. -/
def parseFailMsg : Str := ("SyntaxError: Unexpected token in JSON").toList

/-- JS `msg.includes(pat)`. -/
def containsSub (pat : Str) : Str → Bool
  | [] => decide (pat = [])
  | c :: rest => List.isPrefixOf pat (c :: rest) || containsSub pat rest

/-- The transient-error marker checked by `error.message.includes("503")`. -/
def transient503 : Str := ("503").toList

def genGo (calls : Nat → Except Str Str) :
    Nat → Nat → Except Str Json × Nat × List Nat
  | attempts, 0 => (Except.error (("undefined").toList), attempts, [])
  | attempts, fuel + 1 =>
    match calls attempts with
    | Except.ok text =>
      match cleanAiResponse text with
      | some j => (Except.ok j, attempts + 1, [])
      | none => (Except.error parseFailMsg, attempts + 1, [])
    | Except.error msg =>
      if containsSub transient503 msg ∧ attempts < maxAttempts - 1 then
        let r := genGo calls (attempts + 1) fuel
        (r.1, r.2.1, 2000 :: r.2.2)
      else
        (Except.error msg, attempts + 1, [])

def generateQuestions (calls : Nat → Except Str Str) :
    Except Str Json × Nat × List Nat :=
  genGo calls 0 maxAttempts

/-- Call sequence taken from a finite script; calls beyond the script fail
with an empty message (never reached in the statements below). -/
def scriptCalls (l : List (Except Str Str)) : Nat → Except Str Str :=
  fun n => l.getD n (Except.error [])

/-! ## Concrete instances used in the statements below -/

def qDemo : QA := ⟨("Q1").toList, ("A1").toList⟩

/-- A recorder state reachable by recording ≥ 30 s of mostly silence and
stopping: the stop handler showed the short-answer error but left
`recordingTime` at 35 and the transcript in place. -/
def shortAnswerState : RecState :=
  ⟨("hi there").toList, [], none, 35, false, false⟩

/-- A recorder state 31 s into an ongoing recording with a long transcript:
the save button is enabled while capture and the interval are running. -/
def recordingSaveState : RecState :=
  ⟨("I would use an LRU cache with a write-through policy here").toList,
   [], none, 31, true, true⟩

/-- An overall-evaluation response with no code fences or backticks whose
feedback text happens to contain the word `json`. -/
def noFenceResponse : Str :=
  ("\x7b\"ratings\": 5, \"feedback\": \"use json here\"\x7d").toList

/-- A typical fenced overall-evaluation response. -/
def fencedResponse : Str :=
  ("\x60\x60\x60json\n\x7b\"ratings\": 7, \"feedback\": \"Good\"\x7d\n\x60\x60\x60").toList

def qsDemo : List QA :=
  [⟨("Tell me about caching").toList, ("ref answer A").toList⟩,
   ⟨("Explain database indexing").toList, ("ref answer B").toList⟩]

def psDemo : List (Str × Str) :=
  [(("I use a caching layer").toList, ("it stores hot data").toList),
   (("indexes speed up lookups").toList, ("btree structures").toList)]

/-! # Theorems -/

/-- C10: `cleanAiResponse` has no guard for bracket-less input: on the empty
string (and on any text without `[` or `]`) the extracted slice is not
valid JSON and `JSON.parse` throws (modelled as `none`). -/
theorem claim10_cleanAiResponse_partial :
    cleanAiResponse [] = none ∧
    cleanAiResponse (("no brackets at all").toList) = none :=
  ⟨rfl, rfl⟩

/-- C2: cross-question generation is a pure function of the answer text:
whenever no whitespace-separated word of the lowercased answer is longer
than 2 characters and outside the stop-word list, the generic fallback
prompt is returned; whenever qualifying words exist, the result wraps the
capitalized last one as a "What is ...?" question; the documented example
answer yields "What is Layer?". -/
theorem claim2_generateCrossQuestion :
    (∀ a : Str, crossKeywords a = [] →
      generateCrossQuestion a = fallbackPrompt) ∧
    (∀ (a kw : Str) (pre : List Str), crossKeywords a = pre ++ [kw] →
      generateCrossQuestion a =
        ("What is ").toList ++ capitalizeWord kw ++ ("?").toList) ∧
    generateCrossQuestion (("I am building a scalable caching layer").toList)
      = ("What is Layer?").toList := by
  have hunfold : ∀ a : Str, a ≠ [] →
      generateCrossQuestion a =
        (match (crossKeywords a).getLast? with
         | none => fallbackPrompt
         | some keyword =>
           ("What is ").toList ++ capitalizeWord keyword ++ ("?").toList) := by
    intro a ha
    simp only [generateCrossQuestion, crossKeywords, if_neg ha]
  refine ⟨?_, ?_, by decide⟩
  · intro a h
    by_cases ha : a = []
    · simp [generateCrossQuestion, ha]
    · rw [hunfold a ha, h]
      rfl
  · intro a kw pre h
    have ha : a ≠ [] := by
      intro he
      rw [he] at h
      have : crossKeywords [] = [] := by decide
      rw [this] at h
      exact (List.append_ne_nil_of_right_ne_nil pre (by simp)) h.symm
    rw [hunfold a ha, h, List.getLast?_concat]

/-- Witness for C2: a stop-words-only answer falls back, and a concrete
answer gets its last qualifying keyword capitalized. -/
theorem claim2_witness :
    generateCrossQuestion (("it is as by").toList) = fallbackPrompt ∧
    generateCrossQuestion (("we use caches").toList)
      = ("What is ").toList ++ capitalizeWord (("caches").toList)
          ++ ("?").toList :=
  ⟨claim2_generateCrossQuestion.1 (("it is as by").toList) (by decide),
   claim2_generateCrossQuestion.2.1 (("we use caches").toList)
     (("caches").toList) [("use").toList] (by decide)⟩

/-- No backtick survives the `replace(/(json|```|`)/g, "")` scan: whenever
the head starts a match one alternative fires, and a backtick head always
matches one of them. -/
theorem removeMarkupAux_no_backtick :
    ∀ (fuel : Nat) (s : Str), '\x60' ∉ removeMarkupAux fuel s := by
  intro fuel
  induction fuel with
  | zero => intro s; simp [removeMarkupAux]
  | succ n ih =>
    intro s
    match s with
    | [] => simp [removeMarkupAux]
    | c :: rest =>
      simp only [removeMarkupAux]
      split_ifs with h1 h2 h3
      · exact ih _
      · exact ih _
      · exact ih _
      · intro hmem
        rcases List.mem_cons.mp hmem with hc | hmem2
        · exact h3 hc.symm
        · exact ih _ hmem2

/-- C7 counterexample: `noFenceResponse` contains no backtick and no code
fence, yet the pre-parse cleanup does not leave it unchanged (up to the
trim): the `/(json|```|`)/g` replace also deletes the word `json` inside
the payload's own feedback string, so the parsed feedback differs from the
one the AI returned. -/
theorem claim7_counterexample :
    noFenceResponse.contains '\x60' = false ∧
    decide (stripAiText noFenceResponse = trimStr noFenceResponse) = false ∧
    generateOverallResult (some noFenceResponse)
      = Json.obj [(("ratings").toList, Json.num 5),
                  (("feedback").toList, Json.str (("use  here").toList))] :=
  ⟨rfl, rfl, rfl⟩

/-- C7 amended: before parsing, `generateOverallResult` deletes every
occurrence of the substrings `json`, ``` ``` ``` and `` ` `` anywhere in
the response text and trims it — so all backtick markup is removed (no
backtick survives), but occurrences of `json` inside the payload's own
content are deleted too; a typical fenced response still parses to its
`{ratings, feedback}` object. -/
theorem claim7_markup_strip :
    (∀ s : Str, (removeMarkup s).contains '\x60' = false) ∧
    generateOverallResult (some fencedResponse)
      = Json.obj [(("ratings").toList, Json.num 7),
                  (("feedback").toList, Json.str (("Good").toList))] := by
  refine ⟨?_, rfl⟩
  intro s
  rw [Bool.eq_false_iff]
  intro hc
  obtain ⟨x, hmem, hbeq⟩ := List.contains_iff_exists_mem_beq.mp hc
  cases eq_of_beq hbeq
  exact removeMarkupAux_no_backtick s.length s hmem

/-- C8: whenever the overall-evaluation request fails outright, or its
cleaned response does not parse as JSON, `generateOverallResult` returns
the fallback `{ratings: 0, feedback: "Unable to generate feedback"}`
instead of propagating an error. -/
theorem claim8_overall_fallback :
    generateOverallResult none = fallbackFeedback ∧
    (∀ t : Str, jsonParse (stripAiText t) = none →
      generateOverallResult (some t) = fallbackFeedback) ∧
    fallbackFeedback
      = Json.obj [(("ratings").toList, Json.num 0),
                  (("feedback").toList,
                   Json.str (("Unable to generate feedback").toList))] := by
  refine ⟨rfl, ?_, rfl⟩
  intro t h
  simp only [generateOverallResult, h]

/-- Witness for C8: an unparsable response text lands on the fallback. -/
theorem claim8_witness :
    generateOverallResult (some (("total garbage").toList))
      = fallbackFeedback :=
  claim8_overall_fallback.2.1 (("total garbage").toList) rfl

/-- C3 (code bug): `saveUserAnswer` checks only the elapsed time.  In the
reachable state `shortAnswerState` (35 s recorded, 8-character transcript,
the stop handler already showed the short-answer error) the save persists
the answer document with the short transcript, although both the spec and
the component's own stop-time validation require ≥ 30 characters. -/
theorem claim3_short_answer_persisted :
    (trimStr shortAnswerState.userAnswer).length < 30 ∧
    (saveUserAnswer (("iv1").toList) (("user1").toList) qDemo
        shortAnswerState).persisted
      = some ⟨("iv1").toList, qDemo.question, qDemo.answer,
              ("hi there").toList, [], 0, ("user1").toList⟩ ∧
    (saveUserAnswer (("iv1").toList) (("user1").toList) qDemo
        shortAnswerState).errorMsg = none :=
  ⟨by decide, rfl, rfl⟩

/-- C4: a recording shorter than 30 seconds can never be saved —
`saveUserAnswer` errors out leaving the state untouched and persisting
nothing, whatever the transcript — and stopping such a recording surfaces
an error without accumulating the answer or requesting the overall
result. -/
theorem claim4_short_recording_rejected
    (iv uid : Str) (q : QA) (isLast : Bool) (ai : Option Str)
    (s : RecState) (h : s.recordingTime < MIN_RECORD_TIME) :
    ((saveUserAnswer iv uid q s).persisted = none ∧
     (saveUserAnswer iv uid q s).state = s ∧
     (saveUserAnswer iv uid q s).errorMsg.isSome = true) ∧
    (s.isRecording = true →
      (recordUserAnswer isLast ai s).errorMsg.isSome = true ∧
      (recordUserAnswer isLast ai s).state.allAnswers = s.allAnswers ∧
      (recordUserAnswer isLast ai s).state.aiResult = s.aiResult ∧
      (recordUserAnswer isLast ai s).savedToast = false) := by
  constructor
  · simp [saveUserAnswer, h]
  · intro hrec
    simp [recordUserAnswer, hrec, h]

/-- Witness for C4: a 10-second recording with a long transcript is
rejected by both the save and the stop handler. -/
theorem claim4_witness :
    (saveUserAnswer (("iv1").toList) (("user1").toList) qDemo
        ⟨("a perfectly long and detailed answer text here").toList,
         [], none, 10, true, true⟩).persisted = none ∧
    (recordUserAnswer false none
        ⟨("a perfectly long and detailed answer text here").toList,
         [], none, 10, true, true⟩).state.allAnswers = [] :=
  ⟨(claim4_short_recording_rejected (("iv1").toList) (("user1").toList)
      qDemo false none _ (by decide)).1.1,
   (claim4_short_recording_rejected (("iv1").toList) (("user1").toList)
      qDemo false none _ (by decide)).2 rfl |>.2.1⟩

/-- C9 counterexample: a save confirmed while recording (reachable: the
save button unlocks at 30 s, before the user stops) succeeds — a document
is persisted and speech capture stops — yet the interval timer installed
when recording started is still active afterwards, so the successful-save
path does not clear the timer. -/
theorem claim9_counterexample :
    (saveUserAnswer (("iv1").toList) (("user1").toList) qDemo
        recordingSaveState).persisted.isSome = true ∧
    (saveUserAnswer (("iv1").toList) (("user1").toList) qDemo
        recordingSaveState).state.isRecording = false ∧
    recordingSaveState.timerActive = true ∧
    (saveUserAnswer (("iv1").toList) (("user1").toList) qDemo
        recordingSaveState).state.timerActive = true :=
  ⟨rfl, rfl, rfl, rfl⟩

/-- C9 amended: the interval timer is cleared when recording is toggled
off and by the unmount cleanup, but `saveUserAnswer` never touches it; a
save completed while recording therefore leaves the timer running until
the component unmounts. -/
theorem claim9_timer_clearing
    (iv uid : Str) (q : QA) (isLast : Bool) (ai : Option Str)
    (s : RecState) (hrec : s.isRecording = true) :
    (recordUserAnswer isLast ai s).state.timerActive = false ∧
    (unmountCleanup s).timerActive = false ∧
    (saveUserAnswer iv uid q s).state.timerActive = s.timerActive := by
  refine ⟨?_, rfl, ?_⟩
  · simp only [recordUserAnswer, hrec]
    split_ifs <;> rfl
  · simp only [saveUserAnswer]
    split_ifs <;> rfl

/-- Witness for C9 amended: stopping a recording clears the timer while a
save leaves it untouched. -/
theorem claim9_witness :
    (recordUserAnswer false none recordingSaveState).state.timerActive
      = false ∧
    (saveUserAnswer (("iv1").toList) (("user1").toList) qDemo
        recordingSaveState).state.timerActive
      = recordingSaveState.timerActive :=
  ⟨(claim9_timer_clearing (("iv1").toList) (("user1").toList) qDemo
      false none recordingSaveState rfl).1,
   (claim9_timer_clearing (("iv1").toList) (("user1").toList) qDemo
      false none recordingSaveState rfl).2.2⟩

/-- The retry loop makes at most `attempts + fuel` calls in total. -/
theorem genGo_calls_le (calls : Nat → Except Str Str) :
    ∀ (fuel attempts : Nat), (genGo calls attempts fuel).2.1 ≤ attempts + fuel := by
  intro fuel
  induction fuel with
  | zero => intro attempts; simp [genGo]
  | succ n ih =>
    intro attempts
    cases hc : calls attempts with
    | ok text =>
      rcases hp : cleanAiResponse text with _ | j <;>
        simp [genGo, hc, hp]
    | error msg =>
      simp only [genGo, hc]
      split_ifs with hcond
      · have h := ih (attempts + 1)
        show (genGo calls (attempts + 1) n).2.1 ≤ attempts + (n + 1)
        omega
      · show attempts + 1 ≤ attempts + (n + 1)
        omega

/-- C5: `generateQuestions` makes at most 3 AI calls; two transient (503)
failures followed by a success return the parsed result after two 2-second
backoffs; three consecutive transient failures propagate the last error
after exactly three calls; a non-transient failure propagates immediately,
whether it happens on the first attempt or after a transient retry. -/
theorem claim5_retry_policy :
    (∀ calls, (generateQuestions calls).2.1 ≤ maxAttempts) ∧
    (∀ (m1 m2 t : Str) (j : Json),
      containsSub transient503 m1 = true →
      containsSub transient503 m2 = true →
      cleanAiResponse t = some j →
      generateQuestions (scriptCalls [.error m1, .error m2, .ok t])
        = (.ok j, 3, [2000, 2000])) ∧
    (∀ m1 m2 m3 : Str,
      containsSub transient503 m1 = true →
      containsSub transient503 m2 = true →
      containsSub transient503 m3 = true →
      generateQuestions (scriptCalls [.error m1, .error m2, .error m3])
        = (.error m3, 3, [2000, 2000])) ∧
    (∀ (m : Str) (rest : List (Except Str Str)),
      containsSub transient503 m = false →
      generateQuestions (scriptCalls (.error m :: rest))
        = (.error m, 1, [])) ∧
    (∀ m1 m2 : Str,
      containsSub transient503 m1 = true →
      containsSub transient503 m2 = false →
      generateQuestions (scriptCalls [.error m1, .error m2])
        = (.error m2, 2, [2000])) := by
  refine ⟨?_, ?_, ?_, ?_, ?_⟩
  · intro calls
    simpa [generateQuestions, maxAttempts] using genGo_calls_le calls 3 0
  · intro m1 m2 t j h1 h2 ht
    simp [generateQuestions, genGo, scriptCalls, maxAttempts, h1, h2, ht]
  · intro m1 m2 m3 h1 h2 h3
    simp [generateQuestions, genGo, scriptCalls, maxAttempts, h1, h2, h3]
  · intro m rest h
    simp [generateQuestions, genGo, scriptCalls, maxAttempts, h]
  · intro m1 m2 h1 h2
    simp [generateQuestions, genGo, scriptCalls, maxAttempts, h1, h2]

/-- Witness for C5: two concrete 503 failures then a parseable response
succeed after two backoffs, and a 400 failure propagates at once. -/
theorem claim5_witness :
    generateQuestions (scriptCalls
      [.error (("503 Service Unavailable").toList),
       .error (("503 Service Unavailable").toList),
       .ok (("[\x7b\"question\":\"Q\",\"answer\":\"A\"\x7d]").toList)])
      = (.ok (Json.arr [Json.obj
          [(("question").toList, Json.str (("Q").toList)),
           (("answer").toList, Json.str (("A").toList))]]),
         3, [2000, 2000]) ∧
    generateQuestions (scriptCalls [.error (("400 bad request").toList)])
      = (.error (("400 bad request").toList), 1, []) :=
  ⟨claim5_retry_policy.2.1 (("503 Service Unavailable").toList)
     (("503 Service Unavailable").toList)
     (("[\x7b\"question\":\"Q\",\"answer\":\"A\"\x7d]").toList)
     (Json.arr [Json.obj
       [(("question").toList, Json.str (("Q").toList)),
        (("answer").toList, Json.str (("A").toList))]])
     rfl rfl rfl,
   claim5_retry_policy.2.2.2.1 (("400 bad request").toList) [] rfl⟩

/-- Scanning for `c` past a prefix that does not contain it shifts the
found index by the prefix length. -/
theorem firstIdxAux_append_of_not_mem (c : Char) :
    ∀ (pre rest : Str), c ∉ pre →
      firstIdxAux c (pre ++ rest) = (firstIdxAux c rest).map (· + pre.length) := by
  intro pre
  induction pre with
  | nil =>
    intro rest _
    rw [List.nil_append]
    cases h : firstIdxAux c rest <;> simp [h]
  | cons x xs ih =>
    intro rest h
    have hx : ¬(x = c) := fun he => h (by rw [he]; exact List.mem_cons_self c xs)
    have hxs : c ∉ xs := fun hm => h (List.mem_cons_of_mem _ hm)
    rw [List.cons_append]
    simp only [firstIdxAux, if_neg hx, ih rest hxs]
    cases firstIdxAux c rest with
    | none => simp
    | some v => simp; omega

theorem drop_take_mid (pre mid post : Str) :
    ((pre ++ mid ++ post).drop pre.length).take mid.length = mid := by
  rw [List.append_assoc, List.drop_left, List.take_left]

/-- The bracket extraction of `cleanAiResponse`: on any text decomposed as
`pre ++ "[...]" ++ post` with no `[` before and no `]` after, the parsed
slice is exactly the bracketed middle. -/
theorem cleanAiResponse_extract (pre inner post : Str)
    (hpre : '[' ∉ pre) (hpost : ']' ∉ post) :
    cleanAiResponse (pre ++ ('[' :: (inner ++ [']'])) ++ post)
      = jsonParse ('[' :: (inner ++ [']'])) := by
  have hfirst :
      jsIndexOf (pre ++ ('[' :: (inner ++ [']'])) ++ post) '['
        = (pre.length : Int) := by
    unfold jsIndexOf
    rw [List.append_assoc, firstIdxAux_append_of_not_mem '[' pre _ hpre]
    simp [firstIdxAux]
  have hrev :
      (pre ++ ('[' :: (inner ++ [']'])) ++ post).reverse
        = post.reverse ++ (']' :: (inner.reverse ++ ('[' :: pre.reverse))) := by
    simp
  have hpost2 : ']' ∉ post.reverse := by simpa using hpost
  have hlen :
      (pre ++ ('[' :: (inner ++ [']'])) ++ post).length
        = pre.length + (inner.length + 2) + post.length := by
    simp
    omega
  have hlast :
      jsLastIndexOf (pre ++ ('[' :: (inner ++ [']'])) ++ post) ']'
        = ((pre.length + inner.length + 1 : Nat) : Int) := by
    unfold jsLastIndexOf
    rw [hrev, firstIdxAux_append_of_not_mem ']' post.reverse _ hpost2]
    simp only [firstIdxAux, if_pos rfl, Option.map_some, hlen, hrev]
    simp
    omega
  have hslice :
      jsSlice (pre ++ ('[' :: (inner ++ [']'])) ++ post)
        (jsIndexOf (pre ++ ('[' :: (inner ++ [']'])) ++ post) '[')
        (jsLastIndexOf (pre ++ ('[' :: (inner ++ [']'])) ++ post) ']' + 1)
      = '[' :: (inner ++ [']']) := by
    rw [hfirst, hlast]
    unfold jsSlice jsNormIdx
    have h1 : ¬((pre.length : Int) < 0) := by omega
    have h2 : ¬(((pre.length + inner.length + 1 : Nat) : Int) + 1 < 0) := by
      omega
    rw [if_neg h1, if_neg h2]
    have h3 : (pre.length : Int).toNat = pre.length := by omega
    have h4 : (((pre.length + inner.length + 1 : Nat) : Int) + 1).toNat
        = pre.length + inner.length + 2 := by omega
    rw [h3, h4, hlen]
    have h5 : min pre.length (pre.length + (inner.length + 2) + post.length)
        = pre.length := by omega
    have h6 : min (pre.length + inner.length + 2)
        (pre.length + (inner.length + 2) + post.length)
        = pre.length + inner.length + 2 := by omega
    rw [h5, h6]
    have h7 : pre.length + inner.length + 2 - pre.length
        = ('[' :: (inner ++ [']'])).length := by simp; omega
    show ((pre ++ ('[' :: (inner ++ [']'])) ++ post).drop pre.length).take
        (pre.length + inner.length + 2 - pre.length) = '[' :: (inner ++ [']'])
    rw [h7]
    exact drop_take_mid pre _ post
  unfold cleanAiResponse
  rw [hslice]

/-- C6: `cleanAiResponse` parses exactly the slice between the first `[`
and the last `]` inclusive — on any decomposition with no earlier `[` and
no later `]` the surrounding prose is discarded — and the documented
fenced example parses to the one-element question/answer array. -/
theorem claim6_bracket_extraction :
    (∀ pre inner post : Str, '[' ∉ pre → ']' ∉ post →
      cleanAiResponse (pre ++ ('[' :: (inner ++ [']'])) ++ post)
        = jsonParse ('[' :: (inner ++ [']']))) ∧
    cleanAiResponse
      (("Here you go:\n```json\n[\x7b\"question\":\"Q\",\"answer\":\"A\"\x7d]\n```").toList)
      = some (Json.arr [Json.obj
          [(("question").toList, Json.str (("Q").toList)),
           (("answer").toList, Json.str (("A").toList))]]) :=
  ⟨cleanAiResponse_extract, rfl⟩

/-- Witness for C6: prose around a concrete array is ignored. -/
theorem claim6_witness :
    cleanAiResponse ((("ab").toList)
        ++ ('[' :: ((("1").toList) ++ [']'])) ++ (("cd").toList))
      = jsonParse ('[' :: ((("1").toList) ++ [']'])) :=
  claim6_bracket_extraction.1 (("ab").toList) (("1").toList)
    (("cd").toList) (by decide) (by decide)

/-- The trace of `runFlow` has one entry per submission pair. -/
theorem runFlow_length (qs : List QA) :
    ∀ (ps : List (Str × Str)) (s : FlowState),
      (runFlow qs s ps).1.length = ps.length := by
  intro ps
  induction ps with
  | nil => intro s; rfl
  | cons p rest ih => intro s; simp [runFlow, ih]

/-- Main invariant of the flow controller: starting at index `i` outside
the cross sub-state with `i` accumulated answers and one submission pair
per remaining question, the `k`-th processed pair submits the main answer
without navigating, enters the cross sub-state at index `i + k`, leaves
`i + k + 1` accumulated answers, and navigates — with the full answer
list and the original questions — exactly on the final pair. -/
theorem runFlow_trace (qs : List QA) :
    ∀ (ps : List (Str × Str)) (i : Nat) (acc : List AnswerRec),
      acc.length = i → i + ps.length = qs.length →
      ∀ (k : Nat) (hk : k < ((runFlow qs ⟨i, false, [], [], acc⟩ ps).1).length),
        (((runFlow qs ⟨i, false, [], [], acc⟩ ps).1).get ⟨k, hk⟩).mainNav = none ∧
        (((runFlow qs ⟨i, false, [], [], acc⟩ ps).1).get ⟨k, hk⟩).enteredCross = true ∧
        (((runFlow qs ⟨i, false, [], [], acc⟩ ps).1).get ⟨k, hk⟩).crossIdx = i + k ∧
        (((runFlow qs ⟨i, false, [], [], acc⟩ ps).1).get ⟨k, hk⟩).answersLen = i + k + 1 ∧
        (i + k + 1 < qs.length →
          (((runFlow qs ⟨i, false, [], [], acc⟩ ps).1).get ⟨k, hk⟩).crossNav = none) ∧
        (i + k + 1 = qs.length →
          ∃ ans, (((runFlow qs ⟨i, false, [], [], acc⟩ ps).1).get ⟨k, hk⟩).crossNav
              = some (ans, qs) ∧ ans.length = qs.length) := by
  intro ps
  induction ps with
  | nil =>
    intro i acc _ _ k hk
    simp [runFlow] at hk
  | cons p rest ih =>
    intro i acc hacc hlen k hk
    have hmain :
        handleNextQuestion qs ⟨i, false, [], [], acc⟩ p.1
          = (⟨i, true, generateCrossQuestion p.1, p.1, acc⟩, none) := by
      simp [handleNextQuestion]
    by_cases hi : i < qs.length - 1
    · have hcross :
          handleNextQuestion qs ⟨i, true, generateCrossQuestion p.1, p.1, acc⟩ p.2
            = (⟨i + 1, false, [], [],
                acc ++ [⟨(qs.getD i ⟨[], []⟩).question,
                        p.1 ++ (" | Follow-up: ").toList ++ p.2,
                        (qs.getD i ⟨[], []⟩).answer⟩]⟩, none) := by
        simp [handleNextQuestion, hi]
      match k with
      | 0 =>
        refine ⟨?_, ?_, ?_, ?_, ?_, ?_⟩ <;>
          simp [runFlow, hmain, hcross, hacc]
        omega
      | Nat.succ k2 =>
        have hk2 : k2 < ((runFlow qs ⟨i + 1, false, [], [],
            acc ++ [⟨(qs.getD i ⟨[], []⟩).question,
                    p.1 ++ (" | Follow-up: ").toList ++ p.2,
                    (qs.getD i ⟨[], []⟩).answer⟩]⟩ rest).1).length := by
          have := hk
          simp [runFlow, hmain, hcross, runFlow_length] at this ⊢
          omega
        have hrec := ih (i + 1)
          (acc ++ [⟨(qs.getD i ⟨[], []⟩).question,
                   p.1 ++ (" | Follow-up: ").toList ++ p.2,
                   (qs.getD i ⟨[], []⟩).answer⟩])
          (by simp [hacc]) (by simp at hlen ⊢; omega) k2 hk2
        have hget :
            ((runFlow qs ⟨i, false, [], [], acc⟩ (p :: rest)).1).get ⟨k2 + 1, hk⟩
              = ((runFlow qs ⟨i + 1, false, [], [],
                  acc ++ [⟨(qs.getD i ⟨[], []⟩).question,
                          p.1 ++ (" | Follow-up: ").toList ++ p.2,
                          (qs.getD i ⟨[], []⟩).answer⟩]⟩ rest).1).get ⟨k2, hk2⟩ := by
          simp [runFlow, hmain, hcross]
        rw [hget]
        refine ⟨hrec.1, hrec.2.1, ?_, ?_, ?_, ?_⟩
        · rw [hrec.2.2.1]; omega
        · rw [hrec.2.2.2.1]; omega
        · intro h; exact hrec.2.2.2.2.1 (by omega)
        · intro h; exact hrec.2.2.2.2.2 (by omega)
    · have hcross :
          handleNextQuestion qs ⟨i, true, generateCrossQuestion p.1, p.1, acc⟩ p.2
            = (⟨i, false, [], [],
                acc ++ [⟨(qs.getD i ⟨[], []⟩).question,
                        p.1 ++ (" | Follow-up: ").toList ++ p.2,
                        (qs.getD i ⟨[], []⟩).answer⟩]⟩,
               some (acc ++ [⟨(qs.getD i ⟨[], []⟩).question,
                             p.1 ++ (" | Follow-up: ").toList ++ p.2,
                             (qs.getD i ⟨[], []⟩).answer⟩], qs)) := by
        simp [handleNextQuestion, hi]
      have hrest : rest = [] := by
        have h1 : i + (rest.length + 1) = qs.length := by
          simpa using hlen
        have : rest.length = 0 := by omega
        exact List.eq_nil_of_length_eq_zero this
      subst hrest
      have hk0 : k = 0 := by
        simp [runFlow, hmain, hcross] at hk
        omega
      subst hk0
      have hq : qs.length = i + 1 := by
        simp at hlen
        omega
      refine ⟨?_, ?_, ?_, ?_, ?_, ?_⟩ <;>
        simp [runFlow, hmain, hcross, hacc]
      omega

/-- C1: driving `handleNextQuestion` with one main and one cross
submission per question of a non-empty list, every pair k submits its main
answer without navigating, enters the cross sub-state at index k (one
cross-question per main question, in order), accumulates exactly one
combined record (k + 1 answers so far), and navigation to the feedback
view fires exactly on the cross submission of the last question, carrying
the original questions and an answer list of the same length. -/
theorem claim1_flow_controller (qs : List QA) (ps : List (Str × Str))
    (_hq : qs ≠ []) (hl : ps.length = qs.length) :
    (runFlow qs initFlowState ps).1.length = qs.length ∧
    ∀ (k : Nat) (hk : k < (runFlow qs initFlowState ps).1.length),
      ((runFlow qs initFlowState ps).1.get ⟨k, hk⟩).mainNav = none ∧
      ((runFlow qs initFlowState ps).1.get ⟨k, hk⟩).enteredCross = true ∧
      ((runFlow qs initFlowState ps).1.get ⟨k, hk⟩).crossIdx = k ∧
      ((runFlow qs initFlowState ps).1.get ⟨k, hk⟩).answersLen = k + 1 ∧
      (k + 1 < qs.length →
        ((runFlow qs initFlowState ps).1.get ⟨k, hk⟩).crossNav = none) ∧
      (k + 1 = qs.length → ∃ ans,
        ((runFlow qs initFlowState ps).1.get ⟨k, hk⟩).crossNav
          = some (ans, qs) ∧ ans.length = qs.length) := by
  constructor
  · rw [runFlow_length]; exact hl
  · intro k hk
    have h := runFlow_trace qs ps 0 [] rfl (by omega) k hk
    simpa using h

/-- Witness for C1: a concrete two-question interview produces a
two-entry trace. -/
theorem claim1_witness :
    (runFlow qsDemo initFlowState psDemo).1.length = qsDemo.length :=
  (claim1_flow_controller qsDemo psDemo (by decide) (by decide)).1
